import Mathlib

/-!
Shallow embedding of the image-optimization reconciliation pipeline
(`app/services/optimizer.server.js` and the bulk-queue logic of the index
route) and proofs about it.

External effects (network fetches, the sharp encoder, the Shopify mutation
endpoint) are modelled by explicit oracle values supplied as arguments; the
Prisma `imageRecord` table is modelled as a list of records threaded through
each operation. JavaScript numbers holding exact values (byte lengths
divided by 1024, percentages) are modelled by exact arithmetic: the
reference semantics of `Math.round` on an exact value is `jsRound` on ℚ,
and each integer-arithmetic definition used on an executable path is tied
to that reference by a bridge theorem (`jsRoundDiv_eq_jsRound`,
`sizeKb_lt_limit_iff`, `kbOf_eq_jsRound`). A non-finite result of an
unguarded division by zero (NaN or an infinity) is modelled as `none`.
-/

namespace Optimizer

/-- JavaScript Math.round on an exact rational value: floor (q + 1/2). -/
def jsRound (q : ℚ) : ℤ := ⌊q + 1/2⌋

/-- Integer form of `Math.round(p / q)` for a positive denominator, used on
executable paths; `jsRoundDiv_eq_jsRound` ties it to `jsRound`. -/
def jsRoundDiv (p q : ℤ) : ℤ := (2 * p + q) / (2 * q)

/-- Byte length converted to whole kilobytes, `Math.round(len / 1024)`. -/
def kbOf (len : ℕ) : ℤ := jsRoundDiv len 1024

/-- Output format chosen by the transcoder. -/
inductive ImgFormat where
  | webp
  | avif
deriving DecidableEq, Repr

/-- Constant `MAX_WIDTH` of the optimizer object. -/
def MAX_WIDTH : ℕ := 2048

/-- Constant `WEBP_LIMIT_KB` of the optimizer object (the size threshold). -/
def WEBP_LIMIT_KB : ℕ := 200

/-- Oracle for the two sharp encode pipelines on a fixed input: the byte
length of the webp output and of the avif output, or the error message the
encoder throws. -/
structure EncodeOracle where
  webp : Except String ℕ
  avif : Except String ℕ

/-- Result of `optimizeImageLogic`: byte length of the chosen output buffer,
the chosen format tag, and how many encode calls were performed. -/
structure TranscodeOut where
  outLen : ℕ
  format : ImgFormat
  encodes : ℕ
deriving DecidableEq, Repr

/-- Embedding of `optimizeImageLogic(buffer, width)`. The source compares
`sizeKb = buffer.byteLength / 1024` (exact in a double) against
`WEBP_LIMIT_KB`; the executable guard `inputLen < WEBP_LIMIT_KB * 1024` is
the same condition by `sizeKb_lt_limit_iff`. Below the limit only the webp
encode runs; otherwise webp then avif run and the strictly smaller avif
output wins (a tie keeps webp). Resizing affects neither the branch taken
nor which candidate buffer is returned, so the width argument is not part
of the model. An encoder error aborts with the wrapped message. -/
def optimizeImageLogic (inputLen : ℕ) (o : EncodeOracle) : Except String TranscodeOut :=
  if inputLen < WEBP_LIMIT_KB * 1024 then
    match o.webp with
    | .error e => .error ("Image processing failed: " ++ e)
    | .ok w => .ok ⟨w, ImgFormat.webp, 1⟩
  else
    match o.webp with
    | .error e => .error ("Image processing failed: " ++ e)
    | .ok w =>
      match o.avif with
      | .error e => .error ("Image processing failed: " ++ e)
      | .ok a => if a < w then .ok ⟨a, ImgFormat.avif, 2⟩ else .ok ⟨w, ImgFormat.webp, 2⟩

/-- One row of the Prisma `ImageRecord` table (the fields the service reads
and writes; `optimizedUrl` is nullable in the schema and the empty string
stands for null). -/
structure ImageRecord where
  shopifyImageId : String
  productId : String
  originalUrl : String
  optimizedUrl : String
  status : String
  originalKb : ℤ
  optimizedKb : ℤ
  savingsKb : ℤ
deriving DecidableEq, Repr

/-- The record store: the `imageRecord` table as a list of rows (the
database enforces a unique index on `shopifyImageId`). -/
abbrev Store := List ImageRecord

/-- Embedding of `prisma.imageRecord.findUnique` on the `shopifyImageId`
key. -/
def findUnique (key : String) (store : Store) : Option ImageRecord :=
  store.find? (fun r => r.shopifyImageId == key)

/-- Embedding of `prisma.imageRecord.upsert` on the `shopifyImageId` key:
update in place when a row with the key exists, insert otherwise. The
update branch of `commitImage` sets every modelled non-key field, so it is
a full replacement. -/
def upsert (key : String) (fields : ImageRecord) (store : Store) : Store :=
  if store.any (fun r => r.shopifyImageId == key) then
    store.map (fun r => if r.shopifyImageId == key then fields else r)
  else
    store ++ [fields]

/-- Embedding of `prisma.imageRecord.deleteMany` with a `shopifyImageId in
keys` filter. -/
def deleteMany (keys : List String) (store : Store) : Store :=
  store.filter (fun r => !(keys.contains r.shopifyImageId))

/-- Embedding of `prisma.imageRecord.delete` on the `shopifyImageId` key
(the caller has already checked the row exists). -/
def deleteByKey (key : String) (store : Store) : Store :=
  store.filter (fun r => !(r.shopifyImageId == key))

/-- The session fields `commitImage` and `restoreImage` read. -/
structure Session where
  shop : String
  accessToken : String

/-- Truthiness check `session?.shop && session?.accessToken`: the session
exists and neither string is empty. -/
def sessionValid : Option Session → Bool
  | none => false
  | some s => !(s.shop == "") && !(s.accessToken == "")

/-- The fields of a candidate item that `commitImage` and `restoreImage`
read: `item.id`, `item.url`, `item.parentId`, `item.width`. -/
structure Item where
  id : String
  url : String
  parentId : String
  width : ℕ
deriving DecidableEq, Repr

/-- Oracle for the `fetch(item.url)` download of the original bytes: the
response ok flag and status, and the byte length of the body. -/
structure FetchResult where
  ok : Bool
  status : ℕ
  len : ℕ

/-- Oracle for the Shopify image PUT: ok flag and status of the response,
`uploadData.image?.id` (the new numeric image id, absent when the response
carries none) and `uploadData.image.src`. -/
structure UploadResult where
  ok : Bool
  status : ℕ
  imageId : Option ℕ
  src : String

/-- All external effects of one `commitImage` call. -/
structure CommitEnv where
  download : FetchResult
  encode : EncodeOracle
  upload : UploadResult

/-- The value `commitImage` returns on success. `percent` is
`Math.round(((originalKb - optimizedKb) / originalKb) * 100)`; the source
does not guard this division, so when `originalKb = 0` the JavaScript value
is non-finite (NaN or an infinity), modelled as `none`. -/
structure CommitResult where
  beforeKb : ℤ
  afterKb : ℤ
  percent : Option ℤ
  newId : String
deriving DecidableEq, Repr

/-- The unguarded percent computation of `commitImage`:
`Math.round(((beforeKb - afterKb) / beforeKb) * 100)`, with `none` for the
non-finite value produced when `beforeKb = 0`. -/
def commitPercent (beforeKb afterKb : ℤ) : Option ℤ :=
  if beforeKb = 0 then none else some (jsRoundDiv ((beforeKb - afterKb) * 100) beforeKb)

/-- The new GraphQL id built from the numeric id the upload returned. -/
def newGidOf (nid : ℕ) : String := "gid://shopify/ProductImage/" ++ toString nid

/-- The row `commitImage` upserts under the new id. -/
def commitRecord (item : Item) (env : CommitEnv) (originalKb optimizedKb : ℤ)
    (newGid : String) : ImageRecord :=
  ⟨newGid, item.parentId, item.url, env.upload.src, "optimized",
    originalKb, optimizedKb, originalKb - optimizedKb⟩

/-- Embedding of `commitImage(admin, session, item)`. Each throw is an
`Except.error` carrying the thrown message and leaves the store as it was;
on success the store receives the upsert under the new id followed, when
the id rotated, by the deleteMany of the old id. -/
def commitImage (session : Option Session) (item : Item) (env : CommitEnv)
    (store : Store) : Except String CommitResult × Store :=
  if !(sessionValid session) then (.error "Invalid session", store)
  else if !env.download.ok then
    (.error ("Download failed: " ++ toString env.download.status), store)
  else
    let originalKb := kbOf env.download.len
    match optimizeImageLogic env.download.len env.encode with
    | .error e => (.error e, store)
    | .ok t =>
      let optimizedKb := kbOf t.outLen
      if !env.upload.ok then
        (.error ("Upload failed: " ++ toString env.upload.status), store)
      else
        match env.upload.imageId with
        | none => (.error "No image ID returned from upload", store)
        | some nid =>
          let newGid := newGidOf nid
          let store1 := upsert newGid (commitRecord item env originalKb optimizedKb newGid) store
          let store2 := if newGid != item.id then deleteMany [item.id] store1 else store1
          (.ok ⟨originalKb, optimizedKb, commitPercent originalKb optimizedKb, newGid⟩, store2)

/-- Oracle for the restore PUT that points the remote asset back at the
backup URL. -/
structure RestoreEnv where
  ok : Bool
  status : ℕ

/-- Outcome of one `restoreImage` call: the returned status or thrown
message, the store afterwards, and whether the remote mutation request was
issued at all. -/
structure RestoreOutcome where
  result : Except String String
  store : Store
  remoteCalled : Bool
deriving Repr

/-- Embedding of `restoreImage(admin, session, item)`: session check, record
lookup by the current id (absence or a falsy `originalUrl` throws before any
remote call), the remote PUT, then deletion of the record. -/
def restoreImage (session : Option Session) (item : Item) (env : RestoreEnv)
    (store : Store) : RestoreOutcome :=
  if !(sessionValid session) then ⟨.error "Invalid session", store, false⟩
  else
    match findUnique item.id store with
    | none => ⟨.error "Original image not found in DB. Cannot restore.", store, false⟩
    | some record =>
      if record.originalUrl == "" then
        ⟨.error "Original image not found in DB. Cannot restore.", store, false⟩
      else if !env.ok then
        ⟨.error ("Restore failed: " ++ toString env.status), store, true⟩
      else
        ⟨.ok "restored", deleteByKey item.id store, true⟩

/-- One image node of the products query. -/
structure ShopImage where
  id : String
  url : String
  width : ℕ
  height : ℕ
  altText : String
deriving DecidableEq, Repr

/-- One product node of the products query. -/
structure Product where
  id : String
  title : String
  images : List ShopImage
deriving DecidableEq, Repr

/-- One page of the paginated products query: the product nodes and the
`pageInfo.hasNextPage` flag. -/
structure Page where
  products : List Product
  hasNextPage : Bool
deriving DecidableEq, Repr

/-- Outcome of fetching one catalog page: the page, or a thrown error
(network or GraphQL failure inside the while loop). -/
inductive PageResult where
  | ok : Page → PageResult
  | fail : PageResult
deriving DecidableEq, Repr

/-- One entry of the `results` array `scanShop` builds (the candidate view
of one remote image; the constant `type: "Product"` field is omitted). -/
structure Candidate where
  id : String
  url : String
  parentId : String
  parentTitle : String
  width : ℕ
  height : ℕ
  alt : String
  optimized : Bool
  savedKb : ℤ
  originalKb : ℤ
  optimizedKb : ℤ
  percent : ℤ
deriving DecidableEq, Repr

/-- Candidate built by the inner loop of `scanShop` for one image of one
product, merging the remote node with the matching record. The percent is
shown only when the record is optimized and its `originalKb` is truthy
(non-zero); sizes default to 0 without a matching record. -/
def mkCandidate (recordMap : Store) (p : Product) (img : ShopImage) : Candidate :=
  let record := findUnique img.id recordMap
  let isOptimized := match record with
    | some r => r.status == "optimized"
    | none => false
  { id := img.id
    url := img.url
    parentId := p.id
    parentTitle := p.title
    width := img.width
    height := img.height
    alt := img.altText
    optimized := isOptimized
    savedKb := if isOptimized then (match record with | some r => r.savingsKb | none => 0) else 0
    originalKb := match record with | some r => r.originalKb | none => 0
    optimizedKb := if isOptimized then (match record with | some r => r.optimizedKb | none => 0) else 0
    percent := match record with
      | some r =>
        if isOptimized && !(r.originalKb == 0) then
          jsRoundDiv ((r.originalKb - r.optimizedKb) * 100) r.originalKb
        else 0
      | none => 0 }

/-- The (product, image) pairs of one page in traversal order. -/
def pageImages (page : Page) : List (Product × ShopImage) :=
  page.products.flatMap (fun p => p.images.map (fun img => (p, img)))

/-- The candidates one page contributes to the results array. -/
def pageCandidatesOf (recordMap : Store) (page : Page) : List Candidate :=
  (pageImages page).map (fun pi => mkCandidate recordMap pi.1 pi.2)

/-- The image ids one page contributes to the seen set. -/
def pageSeenIds (page : Page) : List String :=
  (pageImages page).map (fun pi => pi.2.id)

/-- Aggregate result of the paging while-loop of `scanShop`: the
accumulated candidates, the accumulated seen image ids, and whether a page
fetch threw (sending control to the catch block). -/
structure ScanLoopOut where
  results : List Candidate
  seen : List String
  errored : Bool
deriving DecidableEq, Repr

/-- The paging while-loop of `scanShop`: consume page responses in order,
pushing every image id into the seen set and a candidate into the results;
keep going while `hasNextPage` holds and at most 2500 results are
accumulated; a thrown page fetch ends the loop in the errored state. An
exhausted response list stands for a page with no next page. -/
def scanLoop (recordMap : Store) : List PageResult → List Candidate → List String → ScanLoopOut
  | [], results, seen => ⟨results, seen, false⟩
  | PageResult.fail :: _, results, seen => ⟨results, seen, true⟩
  | PageResult.ok page :: rest, results, seen =>
    let results1 := results ++ pageCandidatesOf recordMap page
    let seen1 := seen ++ pageSeenIds page
    if page.hasNextPage && !(results1.length > 2500) then
      scanLoop recordMap rest results1 seen1
    else
      ⟨results1, seen1, false⟩

/-- Mutations `scanShop` issues against the record store. -/
inductive StoreOp where
  | deleteMany : List String → StoreOp
deriving DecidableEq, Repr

/-- Embedding of `scanShop(admin, "all")`. `loadOk` is whether the initial
`findMany` succeeds; `pages` are the successive page-fetch outcomes. Any
throw is caught: the candidates accumulated so far are still returned and
the stale cleanup is skipped. After complete paging, records whose key was
never seen are removed in one `deleteMany`; the returned operation list
records the store mutations issued. -/
def scanShop (loadOk : Bool) (pages : List PageResult) (store : Store) :
    List Candidate × Store × List StoreOp :=
  if !loadOk then ([], store, [])
  else
    let out := scanLoop store pages [] []
    if out.errored then (out.results, store, [])
    else
      let stale := store.filter (fun r => !(out.seen.contains r.shopifyImageId))
      if stale.isEmpty then (out.results, store, [])
      else
        (out.results, deleteMany (stale.map (fun r => r.shopifyImageId)) store,
          [StoreOp.deleteMany (stale.map (fun r => r.shopifyImageId))])

/-- One queue entry of the bulk runner (only the id drives control flow). -/
structure BulkItem where
  id : String
deriving DecidableEq, Repr

/-- Terminal accounting of one bulk run: `processedCount`, `errorCount`,
and the ids actually submitted to the action, in submission order. -/
structure BulkOut where
  processed : ℕ
  errors : ℕ
  submitted : List String
deriving DecidableEq, Repr

/-- The worker loop of `runBulkQueue` with `CONCURRENCY = 1`. `outcome id`
is whether the submitted commit/restore for that item succeeds; `stop n` is
the value of the shared stop flag (or run supersession check, which guards
the same exits) when `n` submissions have completed. Per item: exit when
the stop flag is set, skip an id already processed in this run, otherwise
submit; a success is marked processed, a failure increments the error
count, and either way the loop continues with the next item. -/
def bulkGo (outcome : String → Bool) (stop : ℕ → Bool) :
    List BulkItem → ℕ → List String → ℕ → ℕ → List String → BulkOut
  | [], _, _, processed, errors, submitted => ⟨processed, errors, submitted⟩
  | item :: rest, completed, processedIds, processed, errors, submitted =>
    if stop completed then ⟨processed, errors, submitted⟩
    else if processedIds.contains item.id then
      bulkGo outcome stop rest completed processedIds processed errors submitted
    else if outcome item.id then
      bulkGo outcome stop rest (completed + 1) (item.id :: processedIds)
        (processed + 1) errors (submitted ++ [item.id])
    else
      bulkGo outcome stop rest (completed + 1) processedIds
        processed (errors + 1) (submitted ++ [item.id])

/-- Embedding of `runBulkQueue(items, intent)` for one run that is never
superseded: run the single worker over the queue from empty bookkeeping. -/
def runBulkQueue (queue : List BulkItem) (outcome : String → Bool) (stop : ℕ → Bool) :
    BulkOut :=
  bulkGo outcome stop queue 0 [] 0 0 []

/-! Bridge theorems: the integer arithmetic used on executable paths agrees
with the exact rational semantics of the JavaScript expressions. -/

theorem floor_intCast_div_intCast (p q : ℤ) (hq : 0 < q) :
    ⌊((p : ℚ) / (q : ℚ))⌋ = p / q := by
  have h1 : ((q.toNat : ℕ) : ℤ) = q := Int.toNat_of_nonneg hq.le
  have h2 : ((q.toNat : ℕ) : ℚ) = (q : ℚ) := by exact_mod_cast h1
  rw [← h2, Rat.floor_intCast_div_natCast, h1]

/-- The executable rounding of a quotient is `Math.round` of the exact
quotient, for a positive denominator. -/
theorem jsRoundDiv_eq_jsRound (p q : ℤ) (hq : 0 < q) :
    jsRoundDiv p q = jsRound ((p : ℚ) / (q : ℚ)) := by
  unfold jsRound jsRoundDiv
  have hq0 : (q : ℚ) ≠ 0 := by exact_mod_cast hq.ne'
  have h : (p : ℚ) / (q : ℚ) + 1/2 = ((2 * p + q : ℤ) : ℚ) / ((2 * q : ℤ) : ℚ) := by
    push_cast
    field_simp
    ring
  rw [h, floor_intCast_div_intCast _ _ (by linarith)]

/-- `kbOf` is `Math.round(len / 1024)` on the exact quotient. -/
theorem kbOf_eq_jsRound (len : ℕ) : kbOf len = jsRound ((len : ℚ) / 1024) := by
  unfold kbOf
  rw [jsRoundDiv_eq_jsRound (len : ℤ) 1024 (by norm_num)]
  norm_num

/-- The executable transcoder guard `inputLen < WEBP_LIMIT_KB * 1024` is
the source comparison `buffer.byteLength / 1024 < WEBP_LIMIT_KB` on the
exact quotient. -/
theorem sizeKb_lt_limit_iff (len : ℕ) :
    (len : ℚ) / 1024 < (WEBP_LIMIT_KB : ℚ) ↔ len < WEBP_LIMIT_KB * 1024 := by
  rw [div_lt_iff₀ (by norm_num : (0:ℚ) < 1024)]
  constructor <;> intro h <;> exact_mod_cast h

/-- `commitPercent` for a positive original size is `Math.round` of the
exact value of `((beforeKb - afterKb) / beforeKb) * 100`. -/
theorem commitPercent_eq_jsRound (b a : ℤ) (hb : 0 < b) :
    commitPercent b a = some (jsRound (((b : ℚ) - (a : ℚ)) / (b : ℚ) * 100)) := by
  unfold commitPercent
  rw [if_neg hb.ne']
  rw [jsRoundDiv_eq_jsRound _ _ hb]
  have hb0 : (b : ℚ) ≠ 0 := by exact_mod_cast hb.ne'
  congr 1
  congr 1
  push_cast
  ring

/-! Lemmas about the record-store primitives. -/

theorem find?_cons_true (p : ImageRecord → Bool) (a : ImageRecord) (l : List ImageRecord)
    (h : p a = true) : List.find? p (a :: l) = some a :=
  List.find?_cons_of_pos l h

theorem find?_cons_false (p : ImageRecord → Bool) (a : ImageRecord) (l : List ImageRecord)
    (h : p a = false) : List.find? p (a :: l) = List.find? p l :=
  List.find?_cons_of_neg l (by simp [h])

theorem filter_cons_true (p : ImageRecord → Bool) (a : ImageRecord) (l : List ImageRecord)
    (h : p a = true) : (a :: l).filter p = a :: l.filter p :=
  List.filter_cons_of_pos h

theorem filter_cons_false (p : ImageRecord → Bool) (a : ImageRecord) (l : List ImageRecord)
    (h : p a = false) : (a :: l).filter p = l.filter p :=
  List.filter_cons_of_neg (by simp [h])

theorem find?_map_upsert (key : String) (fields : ImageRecord) (store : Store)
    (h : (fields.shopifyImageId == key) = true)
    (hany : store.any (fun r => r.shopifyImageId == key) = true) :
    (store.map (fun r => if r.shopifyImageId == key then fields else r)).find?
      (fun r => r.shopifyImageId == key) = some fields := by
  induction store with
  | nil => simp at hany
  | cons r rs ih =>
    rw [List.map_cons]
    cases hr : (r.shopifyImageId == key) with
    | true =>
      rw [if_pos rfl]
      exact find?_cons_true _ _ _ h
    | false =>
      rw [if_neg (by simp), find?_cons_false _ _ _ hr]
      apply ih
      simp only [List.any_cons, Bool.or_eq_true] at hany
      exact hany.resolve_left (by simp [hr])

theorem find?_append_upsert (key : String) (fields : ImageRecord) (store : Store)
    (h : (fields.shopifyImageId == key) = true)
    (hany : ¬ store.any (fun r => r.shopifyImageId == key) = true) :
    (store ++ [fields]).find? (fun r => r.shopifyImageId == key) = some fields := by
  rw [List.find?_append]
  have hnone : store.find? (fun r => r.shopifyImageId == key) = none := by
    rw [List.find?_eq_none]
    intro x hx hpx
    exact hany (List.any_eq_true.mpr ⟨x, hx, hpx⟩)
  rw [hnone, Option.none_or]
  exact find?_cons_true _ _ _ h

theorem findUnique_upsert_self (key : String) (fields : ImageRecord) (store : Store)
    (h : fields.shopifyImageId = key) :
    findUnique key (upsert key fields store) = some fields := by
  have hb : (fields.shopifyImageId == key) = true := by simp [h]
  unfold findUnique upsert
  by_cases hany : store.any (fun r => r.shopifyImageId == key) = true
  · rw [if_pos hany]
    exact find?_map_upsert key fields store hb hany
  · rw [if_neg hany]
    exact find?_append_upsert key fields store hb hany

theorem findUnique_deleteMany_mem (key : String) (keys : List String) (store : Store)
    (h : keys.contains key = true) :
    findUnique key (deleteMany keys store) = none := by
  unfold findUnique deleteMany
  rw [List.find?_eq_none]
  intro x hx hpx
  have hmem := List.mem_filter.mp hx
  have hkey : x.shopifyImageId = key := by simpa using hpx
  have hc : keys.contains x.shopifyImageId = true := by rw [hkey]; exact h
  rw [hc] at hmem
  simp at hmem

theorem findUnique_deleteMany_not_mem (key : String) (keys : List String) (store : Store)
    (h : keys.contains key = false) :
    findUnique key (deleteMany keys store) = findUnique key store := by
  unfold findUnique deleteMany
  induction store with
  | nil => rfl
  | cons r rs ih =>
    cases hr : (r.shopifyImageId == key) with
    | true =>
      have hrk : r.shopifyImageId = key := by simpa using hr
      have hkc : (!keys.contains r.shopifyImageId) = true := by rw [hrk, h]; rfl
      rw [filter_cons_true _ _ _ hkc, find?_cons_true _ _ _ hr, find?_cons_true _ _ _ hr]
    | false =>
      cases hk : keys.contains r.shopifyImageId with
      | true =>
        rw [filter_cons_false _ _ _ (by rw [hk]; rfl), find?_cons_false _ _ _ hr, ih]
      | false =>
        rw [filter_cons_true _ _ _ (by rw [hk]; rfl), find?_cons_false _ _ _ hr,
          find?_cons_false _ _ _ hr, ih]

theorem findUnique_deleteByKey_self (key : String) (store : Store) :
    findUnique key (deleteByKey key store) = none := by
  unfold findUnique deleteByKey
  rw [List.find?_eq_none]
  intro x hx hpx
  have hmem := List.mem_filter.mp hx
  rw [hpx] at hmem
  simp at hmem

theorem findUnique_deleteByKey_ne (key other : String) (store : Store)
    (h : key ≠ other) :
    findUnique key (deleteByKey other store) = findUnique key store := by
  unfold findUnique deleteByKey
  induction store with
  | nil => rfl
  | cons r rs ih =>
    cases hro : (r.shopifyImageId == other) with
    | true =>
      have hrk : r.shopifyImageId = other := by simpa using hro
      have hne : (r.shopifyImageId == key) = false := by
        rw [hrk]
        simpa using fun hh => h hh.symm
      rw [filter_cons_false _ _ _ (by rw [hro]; rfl), ih, find?_cons_false _ _ _ hne]
    | false =>
      rw [filter_cons_true _ _ _ (by rw [hro]; rfl)]
      cases hrk : (r.shopifyImageId == key) with
      | true => rw [find?_cons_true _ _ _ hrk, find?_cons_true _ _ _ hrk]
      | false => rw [find?_cons_false _ _ _ hrk, find?_cons_false _ _ _ hrk, ih]

/-! Characterization of a successful commit. -/

theorem commitImage_ok_spec (session : Option Session) (item : Item) (env : CommitEnv)
    (store : Store) (res : CommitResult) (store2 : Store)
    (h : commitImage session item env store = (.ok res, store2)) :
    ∃ t nid,
      optimizeImageLogic env.download.len env.encode = .ok t ∧
      env.upload.imageId = some nid ∧
      res = ⟨kbOf env.download.len, kbOf t.outLen,
        commitPercent (kbOf env.download.len) (kbOf t.outLen), newGidOf nid⟩ ∧
      store2 =
        (if newGidOf nid != item.id then
          deleteMany [item.id]
            (upsert (newGidOf nid)
              (commitRecord item env (kbOf env.download.len) (kbOf t.outLen) (newGidOf nid)) store)
        else
          upsert (newGidOf nid)
            (commitRecord item env (kbOf env.download.len) (kbOf t.outLen) (newGidOf nid)) store) := by
  simp only [commitImage] at h
  split at h
  · simp at h
  split at h
  · simp at h
  split at h
  next e heq => simp at h
  next t heq =>
  split at h
  · simp at h
  split at h
  next heq2 => simp at h
  next nid heq2 =>
    rw [Prod.mk.injEq] at h
    obtain ⟨h1, h2⟩ := h
    rw [Except.ok.injEq] at h1
    exact ⟨t, nid, heq, heq2, h1.symm, h2.symm⟩

/-- C9: a commit that throws before the upsert — invalid session, failed
download, transcoder error, rejected upload, or an upload response without
a new image id — leaves the record store unchanged; the first store
mutation of commitImage happens only after a successful upload returned a
new identifier. -/
theorem commit_error_leaves_store (session : Option Session) (item : Item)
    (env : CommitEnv) (store : Store) (e : String) (store2 : Store)
    (h : commitImage session item env store = (.error e, store2)) : store2 = store := by
  simp only [commitImage] at h
  split at h
  · rw [Prod.mk.injEq] at h
    exact h.2.symm
  split at h
  · rw [Prod.mk.injEq] at h
    exact h.2.symm
  split at h
  next e2 heq =>
    rw [Prod.mk.injEq] at h
    exact h.2.symm
  next t heq =>
  split at h
  · rw [Prod.mk.injEq] at h
    exact h.2.symm
  split at h
  next heq2 =>
    rw [Prod.mk.injEq] at h
    exact h.2.symm
  next nid heq2 => simp at h

theorem commit_error_leaves_store_witness :
    (commitImage none ⟨"gid://shopify/ProductImage/1", "http://u", "gid://shopify/Product/1", 500⟩
        ⟨⟨true, 200, 100⟩, ⟨.ok 50, .ok 60⟩, ⟨true, 200, some 42, "http://cdn/new"⟩⟩
        [⟨"k", "p", "u", "o", "optimized", 3, 2, 1⟩]).2 =
      [⟨"k", "p", "u", "o", "optimized", 3, 2, 1⟩] :=
  commit_error_leaves_store none
    ⟨"gid://shopify/ProductImage/1", "http://u", "gid://shopify/Product/1", 500⟩
    ⟨⟨true, 200, 100⟩, ⟨.ok 50, .ok 60⟩, ⟨true, 200, some 42, "http://cdn/new"⟩⟩
    [⟨"k", "p", "u", "o", "optimized", 3, 2, 1⟩] "Invalid session" _ rfl

/-- C1: a commit that completes successfully leaves in the store a record
keyed by the returned new identifier with status optimized, originalKb the
rounded original size, optimizedKb the rounded size of the transcoded
output, and savingsKb their difference; and when the new identifier differs
from the old identifier of the candidate, no record keyed by the old identifier
remains. -/
theorem commit_success_record (session : Option Session) (item : Item) (env : CommitEnv)
    (store : Store) (res : CommitResult) (store2 : Store)
    (h : commitImage session item env store = (.ok res, store2)) :
    res.beforeKb = kbOf env.download.len ∧
    (∃ t, optimizeImageLogic env.download.len env.encode = .ok t ∧ res.afterKb = kbOf t.outLen) ∧
    (∃ r, findUnique res.newId store2 = some r ∧
      r.status = "optimized" ∧
      r.originalKb = res.beforeKb ∧
      r.optimizedKb = res.afterKb ∧
      r.savingsKb = r.originalKb - r.optimizedKb) ∧
    (res.newId ≠ item.id → findUnique item.id store2 = none) := by
  obtain ⟨t, nid, heq, hid, hres, hstore⟩ := commitImage_ok_spec session item env store res store2 h
  have hb : res.beforeKb = kbOf env.download.len := by rw [hres]
  have ha : res.afterKb = kbOf t.outLen := by rw [hres]
  have hn : res.newId = newGidOf nid := by rw [hres]
  refine ⟨hb, ⟨t, heq, ha⟩, ?_, ?_⟩
  · refine ⟨commitRecord item env (kbOf env.download.len) (kbOf t.outLen) (newGidOf nid),
      ?_, rfl, hb.symm, ha.symm, rfl⟩
    rw [hn, hstore]
    cases hbne : (newGidOf nid != item.id) with
    | true =>
      rw [if_pos rfl]
      have hne : newGidOf nid ≠ item.id := by simpa using hbne
      rw [findUnique_deleteMany_not_mem _ _ _ (by simpa using hne)]
      exact findUnique_upsert_self _ _ _ rfl
    | false =>
      rw [if_neg (by simp)]
      exact findUnique_upsert_self _ _ _ rfl
  · intro hne
    rw [hn] at hne
    rw [hstore, if_pos (by simpa using hne)]
    exact findUnique_deleteMany_mem _ _ _ (by simp)

theorem commit_success_record_witness :
    (977 : ℤ) = kbOf 1000000 ∧
    (∃ t, optimizeImageLogic 1000000 (⟨.ok 100000, .ok 200000⟩ : EncodeOracle) = .ok t ∧
      (98 : ℤ) = kbOf t.outLen) ∧
    (∃ r, findUnique "gid://shopify/ProductImage/42"
        [⟨"gid://shopify/ProductImage/42", "gid://shopify/Product/1", "http://u",
          "http://cdn/new", "optimized", 977, 98, 879⟩] = some r ∧
      r.status = "optimized" ∧
      r.originalKb = 977 ∧
      r.optimizedKb = 98 ∧
      r.savingsKb = r.originalKb - r.optimizedKb) ∧
    ("gid://shopify/ProductImage/42" ≠ "gid://shopify/ProductImage/1" →
      findUnique "gid://shopify/ProductImage/1"
        [⟨"gid://shopify/ProductImage/42", "gid://shopify/Product/1", "http://u",
          "http://cdn/new", "optimized", 977, 98, 879⟩] = none) :=
  commit_success_record (some ⟨"s.myshopify.com", "token"⟩)
    ⟨"gid://shopify/ProductImage/1", "http://u", "gid://shopify/Product/1", 500⟩
    ⟨⟨true, 200, 1000000⟩, ⟨.ok 100000, .ok 200000⟩, ⟨true, 200, some 42, "http://cdn/new"⟩⟩
    [] ⟨977, 98, some 90, "gid://shopify/ProductImage/42"⟩
    [⟨"gid://shopify/ProductImage/42", "gid://shopify/Product/1", "http://u",
      "http://cdn/new", "optimized", 977, 98, 879⟩] rfl

/-- C2 counterexample: a commit whose downloaded original rounds to 0 KB
completes successfully, but its returned percent is the unguarded non-finite
value (modelled none), not 0: `commitImage` computes
`Math.round(((originalKb - optimizedKb) / originalKb) * 100)` with no
division-by-zero guard. -/
theorem commit_percent_zero_counterexample :
    (commitImage (some ⟨"s.myshopify.com", "token"⟩)
        ⟨"gid://shopify/ProductImage/1", "http://u", "gid://shopify/Product/1", 500⟩
        ⟨⟨true, 200, 100⟩, ⟨.ok 50, .ok 60⟩, ⟨true, 200, some 42, "http://cdn/new"⟩⟩ []).1 =
      Except.ok ⟨0, 0, none, "gid://shopify/ProductImage/42"⟩ ∧
    (none : Option ℤ) ≠ some 0 :=
  ⟨rfl, by simp⟩

/-- C2 (amended): for every commit that succeeds, the returned percent
equals round((beforeKb - afterKb) / beforeKb * 100) when beforeKb > 0; when
beforeKb = 0 the division is NOT guarded and the returned value is the
non-finite result of a division by zero (modelled none), not 0. -/
theorem commit_percent_formula (session : Option Session) (item : Item) (env : CommitEnv)
    (store : Store) (res : CommitResult) (store2 : Store)
    (h : commitImage session item env store = (.ok res, store2)) :
    (0 < res.beforeKb →
      res.percent =
        some (jsRound (((res.beforeKb : ℚ) - (res.afterKb : ℚ)) / (res.beforeKb : ℚ) * 100))) ∧
    (res.beforeKb = 0 → res.percent = none) := by
  obtain ⟨t, nid, heq, hid, hres, hstore⟩ := commitImage_ok_spec session item env store res store2 h
  have hp : res.percent = commitPercent res.beforeKb res.afterKb := by rw [hres]
  constructor
  · intro hpos
    rw [hp, commitPercent_eq_jsRound _ _ hpos]
  · intro hz
    rw [hp, hz]
    unfold commitPercent
    rw [if_pos rfl]

theorem commit_percent_formula_witness :
    (0 < (977 : ℤ) →
      (some (90 : ℤ) : Option ℤ) =
        some (jsRound ((((977 : ℤ) : ℚ) - ((98 : ℤ) : ℚ)) / ((977 : ℤ) : ℚ) * 100))) ∧
    ((977 : ℤ) = 0 → (some (90 : ℤ) : Option ℤ) = none) :=
  commit_percent_formula (some ⟨"s.myshopify.com", "token"⟩)
    ⟨"gid://shopify/ProductImage/1", "http://u", "gid://shopify/Product/1", 500⟩
    ⟨⟨true, 200, 1000000⟩, ⟨.ok 100000, .ok 200000⟩, ⟨true, 200, some 42, "http://cdn/new"⟩⟩
    [] ⟨977, 98, some 90, "gid://shopify/ProductImage/42"⟩
    [⟨"gid://shopify/ProductImage/42", "gid://shopify/Product/1", "http://u",
      "http://cdn/new", "optimized", 977, 98, 879⟩] rfl

/-- C3: an input whose size in KB is strictly below WEBP_LIMIT_KB gets
exactly one encode and the webp output is returned; an input at or above
the limit gets both encodes and the byte-smaller output is returned, a tie
going to webp. -/
theorem transcode_threshold (inputLen w a : ℕ) (o : EncodeOracle)
    (hw : o.webp = .ok w) (ha : o.avif = .ok a) :
    ((inputLen : ℚ) / 1024 < (WEBP_LIMIT_KB : ℚ) →
      optimizeImageLogic inputLen o = .ok ⟨w, ImgFormat.webp, 1⟩) ∧
    ((WEBP_LIMIT_KB : ℚ) ≤ (inputLen : ℚ) / 1024 →
      ∃ t, optimizeImageLogic inputLen o = .ok t ∧ t.encodes = 2 ∧
        t.outLen = min w a ∧ (t.format = ImgFormat.webp ↔ w ≤ a)) := by
  constructor
  · intro hlt
    have hn : inputLen < WEBP_LIMIT_KB * 1024 := (sizeKb_lt_limit_iff inputLen).mp hlt
    unfold optimizeImageLogic
    rw [if_pos hn, hw]
  · intro hge
    have hn : ¬ inputLen < WEBP_LIMIT_KB * 1024 := by
      rw [← sizeKb_lt_limit_iff]
      exact not_lt.mpr hge
    have hbig : optimizeImageLogic inputLen o =
        (if a < w then .ok ⟨a, ImgFormat.avif, 2⟩ else .ok ⟨w, ImgFormat.webp, 2⟩) := by
      unfold optimizeImageLogic
      rw [if_neg hn, hw, ha]
    rw [hbig]
    by_cases hlt : a < w
    · rw [if_pos hlt]
      exact ⟨_, rfl, rfl, (min_eq_right hlt.le).symm, by simp; omega⟩
    · rw [if_neg hlt]
      push_neg at hlt
      exact ⟨_, rfl, rfl, (min_eq_left hlt).symm, by simp [hlt]⟩

theorem transcode_threshold_witness :
    optimizeImageLogic 1000 (⟨.ok 5, .ok 7⟩ : EncodeOracle) = .ok ⟨5, ImgFormat.webp, 1⟩ ∧
    (∃ t, optimizeImageLogic 300000 (⟨.ok 5, .ok 7⟩ : EncodeOracle) = .ok t ∧ t.encodes = 2 ∧
      t.outLen = min 5 7 ∧ (t.format = ImgFormat.webp ↔ 5 ≤ 7)) :=
  ⟨(transcode_threshold 1000 5 7 ⟨.ok 5, .ok 7⟩ rfl rfl).1
      ((sizeKb_lt_limit_iff 1000).mpr (by decide)),
    (transcode_threshold 300000 5 7 ⟨.ok 5, .ok 7⟩ rfl rfl).2
      (le_of_not_lt (fun hc => by
        have hx := (sizeKb_lt_limit_iff 300000).mp hc
        revert hx
        decide))⟩

/-- C6: a restore invocation (with a valid session) that finds no record
under the current identifier of the candidate, or a record without a backup
originalUrl, fails with the not-found error and performs no mutation: the
store is returned unchanged and the remote mutation request is never
issued. -/
theorem restore_not_found (session : Option Session) (item : Item) (env : RestoreEnv)
    (store : Store)
    (hs : sessionValid session = true)
    (h : findUnique item.id store = none ∨
      ∃ r, findUnique item.id store = some r ∧ r.originalUrl = "") :
    restoreImage session item env store =
      ⟨.error "Original image not found in DB. Cannot restore.", store, false⟩ := by
  unfold restoreImage
  rw [if_neg (by simp [hs])]
  rcases h with hnone | ⟨r, hr, hurl⟩
  · rw [hnone]
  · rw [hr]
    simp [hurl]

theorem restore_not_found_witness :
    sessionValid (some ⟨"s.myshopify.com", "token"⟩) = true ∧
    restoreImage (some ⟨"s.myshopify.com", "token"⟩)
        ⟨"gid://shopify/ProductImage/9", "http://u", "gid://shopify/Product/1", 5⟩
        ⟨true, 200⟩ [] =
      ⟨.error "Original image not found in DB. Cannot restore.", [], false⟩ :=
  ⟨rfl, restore_not_found (some ⟨"s.myshopify.com", "token"⟩)
    ⟨"gid://shopify/ProductImage/9", "http://u", "gid://shopify/Product/1", 5⟩
    ⟨true, 200⟩ [] rfl (Or.inl rfl)⟩

/-- Characterization of a successful restore: the store afterwards is the
store with the record under the id of the item deleted, and the remote mutation
was issued. -/
theorem restore_ok_spec (session : Option Session) (item : Item) (env : RestoreEnv)
    (store : Store) (out : RestoreOutcome)
    (h : restoreImage session item env store = out)
    (hok : out.result = .ok "restored") :
    out.store = deleteByKey item.id store ∧ out.remoteCalled = true := by
  unfold restoreImage at h
  split at h
  · subst h
    simp at hok
  split at h
  next heqf =>
    subst h
    simp at hok
  next r heqf =>
  split at h
  · subst h
    simp at hok
  split at h
  · subst h
    simp at hok
  · subst h
    exact ⟨rfl, rfl⟩

/-- C5: a successful commit followed by a successful restore on the
resulting candidate (keyed by the new identifier commit returned) leaves
no record for the asset: neither at the new identifier nor at the original
one. -/
theorem commit_then_restore_roundtrip (session : Option Session) (item item2 : Item)
    (cenv : CommitEnv) (renv : RestoreEnv) (store : Store) (res : CommitResult)
    (store1 : Store) (out : RestoreOutcome)
    (hc : commitImage session item cenv store = (.ok res, store1))
    (hid : item2.id = res.newId)
    (hr : restoreImage session item2 renv store1 = out)
    (hok : out.result = .ok "restored") :
    findUnique res.newId out.store = none ∧ findUnique item.id out.store = none := by
  obtain ⟨hst, _⟩ := restore_ok_spec session item2 renv store1 out hr hok
  obtain ⟨t, nid, heq, hidu, hres, hstore⟩ :=
    commitImage_ok_spec session item cenv store res store1 hc
  have hn : res.newId = newGidOf nid := by rw [hres]
  constructor
  · rw [hst, hid]
    exact findUnique_deleteByKey_self _ _
  · rw [hst, hid]
    by_cases hcase : res.newId = item.id
    · rw [← hcase]
      exact findUnique_deleteByKey_self _ _
    · rw [findUnique_deleteByKey_ne _ _ _ (fun hh => hcase hh.symm)]
      have hbne : (newGidOf nid != item.id) = true := by
        rw [hn] at hcase
        simpa using hcase
      rw [hstore, if_pos hbne]
      exact findUnique_deleteMany_mem _ _ _ (by simp)

theorem commit_then_restore_roundtrip_witness :
    findUnique "gid://shopify/ProductImage/42" [] = none ∧
    findUnique "gid://shopify/ProductImage/1" [] = none :=
  commit_then_restore_roundtrip (some ⟨"s.myshopify.com", "token"⟩)
    ⟨"gid://shopify/ProductImage/1", "http://u", "gid://shopify/Product/1", 500⟩
    ⟨"gid://shopify/ProductImage/42", "http://u", "gid://shopify/Product/1", 500⟩
    ⟨⟨true, 200, 1000000⟩, ⟨.ok 100000, .ok 200000⟩, ⟨true, 200, some 42, "http://cdn/new"⟩⟩
    ⟨true, 200⟩ [] ⟨977, 98, some 90, "gid://shopify/ProductImage/42"⟩
    [⟨"gid://shopify/ProductImage/42", "gid://shopify/Product/1", "http://u",
      "http://cdn/new", "optimized", 977, 98, 879⟩]
    ⟨.ok "restored", [], true⟩ rfl rfl rfl rfl

/-- The `deleteMany` of the keys of the records not seen during paging
leaves exactly the records whose key was seen. -/
theorem deleteMany_stale_eq_filter (seen : List String) (store : Store) :
    deleteMany ((store.filter (fun r => !(seen.contains r.shopifyImageId))).map
      (fun r => r.shopifyImageId)) store
      = store.filter (fun r => seen.contains r.shopifyImageId) := by
  unfold deleteMany
  apply List.filter_congr
  intro r hr
  rw [Bool.eq_iff_iff]
  simp only [Bool.not_eq_true']
  constructor
  · intro hfalse
    by_contra hns
    have hnseen : seen.contains r.shopifyImageId = false := by
      cases h : seen.contains r.shopifyImageId
      · rfl
      · exact absurd h hns
    have htrue : ((store.filter (fun r => !(seen.contains r.shopifyImageId))).map
        (fun r => r.shopifyImageId)).contains r.shopifyImageId = true :=
      List.contains_iff_exists_mem_beq.mpr
        ⟨r.shopifyImageId,
          List.mem_map.mpr ⟨r, List.mem_filter.mpr ⟨hr, by rw [hnseen]; rfl⟩, rfl⟩,
          by simp⟩
    rw [htrue] at hfalse
    cases hfalse
  · intro hseen
    cases hck : ((store.filter (fun r => !(seen.contains r.shopifyImageId))).map
        (fun r => r.shopifyImageId)).contains r.shopifyImageId
    · rfl
    · exfalso
      obtain ⟨k, hkmem, hbeq⟩ := List.contains_iff_exists_mem_beq.mp hck
      obtain ⟨r2, hr2, hkeq⟩ := List.mem_map.mp hkmem
      obtain ⟨hr2mem, hr2ns⟩ := List.mem_filter.mp hr2
      have hkk : r.shopifyImageId = k := by simpa using hbeq
      have h2 : seen.contains r2.shopifyImageId = false := by simpa using hr2ns
      rw [hkeq, ← hkk] at h2
      rw [hseen] at h2
      cases h2

/-- C4: a scan that pages without error over a catalog, against a store
holding some records whose keys were never seen, ends with the store
holding exactly the records whose keys were seen during paging, the stale
rest removed by a single batched deleteMany issued after paging. -/
theorem scan_stale_cleanup (pages : List PageResult) (store : Store)
    (herr : (scanLoop store pages [] []).errored = false)
    (hstale : ∃ r ∈ store,
      ((scanLoop store pages [] []).seen).contains r.shopifyImageId = false) :
    (scanShop true pages store).2.1 =
      store.filter (fun r => ((scanLoop store pages [] []).seen).contains r.shopifyImageId) ∧
    (scanShop true pages store).2.2 =
      [StoreOp.deleteMany ((store.filter
        (fun r => !(((scanLoop store pages [] []).seen).contains r.shopifyImageId))).map
          (fun r => r.shopifyImageId))] := by
  obtain ⟨r0, hr0mem, hr0⟩ := hstale
  have hne : (store.filter
      (fun r => !(((scanLoop store pages [] []).seen).contains r.shopifyImageId))).isEmpty
        = false := by
    have hmem : r0 ∈ store.filter
        (fun r => !(((scanLoop store pages [] []).seen).contains r.shopifyImageId)) :=
      List.mem_filter.mpr ⟨hr0mem, by rw [hr0]; rfl⟩
    rw [List.isEmpty_eq_false]
    exact List.ne_nil_of_mem hmem
  simp only [scanShop]
  rw [if_neg (by simp), if_neg (by simp [herr]), if_neg (by rw [hne]; simp)]
  exact ⟨deleteMany_stale_eq_filter _ _, rfl⟩

theorem scan_stale_cleanup_witness :
    (scanShop true [PageResult.ok ⟨[⟨"P", "T", [⟨"A", "url", 100, 100, "alt"⟩]⟩], false⟩]
        [⟨"A", "p", "u", "o", "optimized", 10, 5, 5⟩,
         ⟨"B", "p", "u", "o", "optimized", 8, 4, 4⟩]).2.1 =
      ([⟨"A", "p", "u", "o", "optimized", 10, 5, 5⟩,
        ⟨"B", "p", "u", "o", "optimized", 8, 4, 4⟩] : Store).filter
        (fun r => ((scanLoop
          [⟨"A", "p", "u", "o", "optimized", 10, 5, 5⟩,
           ⟨"B", "p", "u", "o", "optimized", 8, 4, 4⟩]
          [PageResult.ok ⟨[⟨"P", "T", [⟨"A", "url", 100, 100, "alt"⟩]⟩], false⟩]
          [] []).seen).contains r.shopifyImageId) ∧
    (scanShop true [PageResult.ok ⟨[⟨"P", "T", [⟨"A", "url", 100, 100, "alt"⟩]⟩], false⟩]
        [⟨"A", "p", "u", "o", "optimized", 10, 5, 5⟩,
         ⟨"B", "p", "u", "o", "optimized", 8, 4, 4⟩]).2.2 =
      [StoreOp.deleteMany
        ((([⟨"A", "p", "u", "o", "optimized", 10, 5, 5⟩,
            ⟨"B", "p", "u", "o", "optimized", 8, 4, 4⟩] : Store).filter
          (fun r => !(((scanLoop
            [⟨"A", "p", "u", "o", "optimized", 10, 5, 5⟩,
             ⟨"B", "p", "u", "o", "optimized", 8, 4, 4⟩]
            [PageResult.ok ⟨[⟨"P", "T", [⟨"A", "url", 100, 100, "alt"⟩]⟩], false⟩]
            [] []).seen).contains r.shopifyImageId))).map
          (fun r => r.shopifyImageId))] :=
  scan_stale_cleanup
    [PageResult.ok ⟨[⟨"P", "T", [⟨"A", "url", 100, 100, "alt"⟩]⟩], false⟩]
    [⟨"A", "p", "u", "o", "optimized", 10, 5, 5⟩,
     ⟨"B", "p", "u", "o", "optimized", 8, 4, 4⟩]
    rfl
    ⟨⟨"B", "p", "u", "o", "optimized", 8, 4, 4⟩, by decide, rfl⟩

/-- The paging loop, run over error-free pages that all announce a next
page and stay under the result cap, reaches a failing page fetch with
exactly the candidates and seen ids of the pages before it accumulated. -/
theorem scanLoop_reaches_fail (recordMap : Store) (rest : List PageResult) (pfx : List Page) :
    ∀ (results : List Candidate) (seen : List String),
    (∀ p ∈ pfx, p.hasNextPage = true) →
    results.length + (pfx.map (fun p => (pageImages p).length)).sum ≤ 2500 →
    scanLoop recordMap (pfx.map PageResult.ok ++ PageResult.fail :: rest) results seen =
      ⟨results ++ pfx.flatMap (pageCandidatesOf recordMap),
       seen ++ pfx.flatMap pageSeenIds, true⟩ := by
  induction pfx with
  | nil =>
    intro results seen _ _
    simp [scanLoop]
  | cons p ps ih =>
    intro results seen hnext hcap
    have hlenp : (pageCandidatesOf recordMap p).length = (pageImages p).length := by
      unfold pageCandidatesOf
      rw [List.length_map]
    have hcap1 : (results ++ pageCandidatesOf recordMap p).length +
        (ps.map (fun p => (pageImages p).length)).sum ≤ 2500 := by
      rw [List.length_append, hlenp]
      simp only [List.map_cons, List.sum_cons] at hcap
      omega
    have hcond : (p.hasNextPage &&
        !((results ++ pageCandidatesOf recordMap p).length > 2500)) = true := by
      have h1 : p.hasNextPage = true := hnext p (by simp)
      rw [h1]
      simp only [Bool.true_and, Bool.not_eq_true', decide_eq_false_iff_not, not_lt]
      omega
    rw [List.map_cons, List.cons_append]
    simp only [scanLoop]
    rw [if_pos hcond, ih _ _ (fun q hq => hnext q (by simp [hq])) hcap1]
    simp [List.flatMap_cons, List.append_assoc]

/-- C10: a scan whose record load fails, or whose paging throws partway,
skips the stale cleanup entirely — the store is returned unchanged and no
store mutation is issued — and still returns the candidates accumulated
before the error instead of propagating it. -/
theorem scan_error_no_cleanup (store : Store) (pfx : List Page) (rest : List PageResult)
    (hnext : ∀ p ∈ pfx, p.hasNextPage = true)
    (hcap : (pfx.map (fun p => (pageImages p).length)).sum ≤ 2500) :
    scanShop false (pfx.map PageResult.ok ++ PageResult.fail :: rest) store =
      ([], store, []) ∧
    scanShop true (pfx.map PageResult.ok ++ PageResult.fail :: rest) store =
      (pfx.flatMap (pageCandidatesOf store), store, []) := by
  constructor
  · simp [scanShop]
  · have hloop := scanLoop_reaches_fail store rest pfx [] [] hnext (by simpa using hcap)
    simp only [scanShop]
    rw [if_neg (by simp), hloop, if_pos rfl]
    simp

theorem scan_error_no_cleanup_witness :
    scanShop false
        [PageResult.ok ⟨[⟨"P", "T", [⟨"A", "url", 100, 100, "alt"⟩]⟩], true⟩, PageResult.fail]
        [⟨"B", "p", "u", "o", "optimized", 8, 4, 4⟩] =
      ([], [⟨"B", "p", "u", "o", "optimized", 8, 4, 4⟩], []) ∧
    scanShop true
        [PageResult.ok ⟨[⟨"P", "T", [⟨"A", "url", 100, 100, "alt"⟩]⟩], true⟩, PageResult.fail]
        [⟨"B", "p", "u", "o", "optimized", 8, 4, 4⟩] =
      (([⟨[⟨"P", "T", [⟨"A", "url", 100, 100, "alt"⟩]⟩], true⟩] : List Page).flatMap
        (pageCandidatesOf [⟨"B", "p", "u", "o", "optimized", 8, 4, 4⟩]),
        [⟨"B", "p", "u", "o", "optimized", 8, 4, 4⟩], []) :=
  scan_error_no_cleanup [⟨"B", "p", "u", "o", "optimized", 8, 4, 4⟩]
    [⟨[⟨"P", "T", [⟨"A", "url", 100, 100, "alt"⟩]⟩], true⟩] [] (by decide) (by decide)

/-- The worker loop with the stop flag never raised submits every
distinct-id item in order, counting each success into processedCount and
each failure into errorCount. -/
theorem bulkGo_no_stop (outcome : String → Bool) (stop : ℕ → Bool)
    (hstop : ∀ n, stop n = false) :
    ∀ (queue : List BulkItem) (completed : ℕ) (ids : List String)
      (processed errors : ℕ) (submitted : List String),
    (queue.map BulkItem.id).Nodup →
    (∀ i ∈ queue, ids.contains i.id = false) →
    bulkGo outcome stop queue completed ids processed errors submitted =
      ⟨processed + (queue.map BulkItem.id).countP (fun k => outcome k),
       errors + (queue.map BulkItem.id).countP (fun k => !(outcome k)),
       submitted ++ queue.map BulkItem.id⟩ := by
  intro queue
  induction queue with
  | nil =>
    intro completed ids processed errors submitted _ _
    simp [bulkGo]
  | cons item rest ih =>
    intro completed ids processed errors submitted hnd hdisj
    have hndr : (rest.map BulkItem.id).Nodup := by
      rw [List.map_cons, List.nodup_cons] at hnd
      exact hnd.2
    have hnotin : item.id ∉ rest.map BulkItem.id := by
      rw [List.map_cons, List.nodup_cons] at hnd
      exact hnd.1
    have hdisjr : ∀ i ∈ rest, (item.id :: ids).contains i.id = false := by
      intro i hi
      rw [List.contains_cons]
      have h1 : (i.id == item.id) = false := by
        have : i.id ≠ item.id := by
          intro hh
          exact hnotin (hh ▸ List.mem_map.mpr ⟨i, hi, rfl⟩)
        simpa using this
      rw [h1, hdisj i (by simp [hi])]
      rfl
    simp only [bulkGo]
    rw [if_neg (by rw [hstop completed]; simp), if_neg (by rw [hdisj item (by simp)]; simp)]
    cases ho : outcome item.id with
    | true =>
      rw [if_pos rfl, ih (completed + 1) (item.id :: ids) (processed + 1) errors
        (submitted ++ [item.id]) hndr hdisjr]
      rw [BulkOut.mk.injEq]
      refine ⟨?_, ?_, ?_⟩
      · rw [List.map_cons, List.countP_cons, ho]
        simp
        omega
      · rw [List.map_cons, List.countP_cons, ho]
        simp
      · simp
    | false =>
      rw [if_neg (by simp), ih (completed + 1) ids processed (errors + 1)
        (submitted ++ [item.id]) hndr (fun i hi => hdisj i (by simp [hi]))]
      rw [BulkOut.mk.injEq]
      refine ⟨?_, ?_, ?_⟩
      · rw [List.map_cons, List.countP_cons, ho]
        simp
      · rw [List.map_cons, List.countP_cons, ho]
        simp
        omega
      · simp

/-- C7: in a bulk run with no stop requested, every distinct item of the
queue is submitted, in order; each failed item only increments the error
count and every later item is still attempted — no failure aborts the
run. -/
theorem bulk_failure_continues (queue : List BulkItem) (outcome : String → Bool)
    (hnd : (queue.map BulkItem.id).Nodup) :
    runBulkQueue queue outcome (fun _ => false) =
      ⟨(queue.map BulkItem.id).countP (fun k => outcome k),
       (queue.map BulkItem.id).countP (fun k => !(outcome k)),
       queue.map BulkItem.id⟩ := by
  unfold runBulkQueue
  have h := bulkGo_no_stop outcome (fun _ => false) (fun _ => rfl) queue 0 [] 0 0 [] hnd
    (fun i _ => rfl)
  simpa using h

theorem bulk_failure_continues_witness :
    runBulkQueue [⟨"a"⟩, ⟨"b"⟩, ⟨"c"⟩] (fun k => !(k == "b")) (fun _ => false) =
      ⟨(([⟨"a"⟩, ⟨"b"⟩, ⟨"c"⟩] : List BulkItem).map BulkItem.id).countP
          (fun k => !(k == "b")),
        (([⟨"a"⟩, ⟨"b"⟩, ⟨"c"⟩] : List BulkItem).map BulkItem.id).countP
          (fun k => !(!(k == "b"))),
        ([⟨"a"⟩, ⟨"b"⟩, ⟨"c"⟩] : List BulkItem).map BulkItem.id⟩ :=
  bulk_failure_continues [⟨"a"⟩, ⟨"b"⟩, ⟨"c"⟩] (fun k => !(k == "b")) (by decide)

/-- The worker loop under a stop flag that is raised as soon as J
submissions have completed runs exactly up to that point. -/
theorem bulkGo_stop_after (outcome : String → Bool) (J : ℕ) :
    ∀ (queue : List BulkItem) (completed : ℕ) (ids : List String)
      (processed errors : ℕ) (submitted : List String),
    completed ≤ J →
    (∀ i ∈ queue.take (J - completed), outcome i.id = true) →
    (queue.map BulkItem.id).Nodup →
    (∀ i ∈ queue, ids.contains i.id = false) →
    bulkGo outcome (fun n => decide (J ≤ n)) queue completed ids processed errors submitted =
      ⟨processed + min (J - completed) queue.length, errors,
       submitted ++ (queue.take (J - completed)).map BulkItem.id⟩ := by
  intro queue
  induction queue with
  | nil =>
    intro completed ids processed errors submitted _ _ _ _
    simp [bulkGo]
  | cons item rest ih =>
    intro completed ids processed errors submitted hcle hsucc hnd hdisj
    by_cases hstop : J ≤ completed
    · have h0 : J - completed = 0 := by omega
      simp only [bulkGo]
      rw [if_pos (by simpa using hstop), h0]
      simp
    · have hlt : completed < J := not_le.mp hstop
      obtain ⟨k, hk⟩ : ∃ k, J - completed = k + 1 := ⟨J - completed - 1, by omega⟩
      have hndr : (rest.map BulkItem.id).Nodup := by
        rw [List.map_cons, List.nodup_cons] at hnd
        exact hnd.2
      have hnotin : item.id ∉ rest.map BulkItem.id := by
        rw [List.map_cons, List.nodup_cons] at hnd
        exact hnd.1
      have hdisjr : ∀ i ∈ rest, (item.id :: ids).contains i.id = false := by
        intro i hi
        rw [List.contains_cons]
        have h1 : (i.id == item.id) = false := by
          have : i.id ≠ item.id := by
            intro hh
            exact hnotin (hh ▸ List.mem_map.mpr ⟨i, hi, rfl⟩)
          simpa using this
        rw [h1, hdisj i (by simp [hi])]
        rfl
      have hsi : outcome item.id = true := by
        apply hsucc item
        rw [hk, List.take_succ_cons]
        simp
      have hsuccr : ∀ i ∈ rest.take (J - (completed + 1)), outcome i.id = true := by
        intro i hi
        apply hsucc i
        rw [hk, List.take_succ_cons]
        have hk2 : J - (completed + 1) = k := by omega
        rw [hk2] at hi
        simp [hi]
      simp only [bulkGo]
      rw [if_neg (by simpa using hstop), if_neg (by rw [hdisj item (by simp)]; simp),
        if_pos hsi, ih (completed + 1) (item.id :: ids) (processed + 1) errors
          (submitted ++ [item.id]) (by omega) hsuccr hndr hdisjr]
      rw [BulkOut.mk.injEq]
      refine ⟨?_, rfl, ?_⟩
      · rw [List.length_cons]
        omega
      · have hk2 : J - (completed + 1) = k := by omega
        rw [hk, hk2, List.take_succ_cons, List.map_cons]
        simp

/-- C8: in a bulk run over K items where the stop flag is raised once J < K
items have completed (all of them successfully), exactly J items are marked
processed, no errors are recorded, and items J+1..K are never submitted. -/
theorem bulk_stop_determinism (queue : List BulkItem) (outcome : String → Bool) (J : ℕ)
    (hJ : J < queue.length)
    (hnd : (queue.map BulkItem.id).Nodup)
    (hsucc : ∀ i ∈ queue.take J, outcome i.id = true) :
    runBulkQueue queue outcome (fun n => decide (J ≤ n)) =
      ⟨J, 0, (queue.take J).map BulkItem.id⟩ := by
  unfold runBulkQueue
  rw [bulkGo_stop_after outcome J queue 0 [] 0 0 [] (by omega) (by simpa using hsucc) hnd
    (fun i _ => rfl)]
  rw [BulkOut.mk.injEq]
  refine ⟨?_, rfl, by simp⟩
  simp only [Nat.sub_zero, Nat.zero_add]
  omega

theorem bulk_stop_determinism_witness :
    runBulkQueue [⟨"a"⟩, ⟨"b"⟩, ⟨"c"⟩] (fun _ => true) (fun n => decide (2 ≤ n)) =
      ⟨2, 0, (([⟨"a"⟩, ⟨"b"⟩, ⟨"c"⟩] : List BulkItem).take 2).map BulkItem.id⟩ :=
  bulk_stop_determinism [⟨"a"⟩, ⟨"b"⟩, ⟨"c"⟩] (fun _ => true) 2 (by decide) (by decide)
    (by decide)

end Optimizer
